import Mathlib

/-!
Verification of the httpmock library core (expectation matching and
execution planning) against its natural-language specification.

The Go source is shallowly embedded: pure functions become Lean functions,
pointer mutation becomes explicit state passing, Go panics are made explicit
through the `GoResult` type, and `defer`/`recover` blocks become the
`GoResult` case analysis at the end of the corresponding function.
Machine integers (`int`) are modelled as `Int`, unsigned counters (`uint`)
as `Nat`; no arithmetic here approaches the 64-bit overflow boundary and the
one guarded decrement (`Fulfilled`) is proven never to underflow.
-/

namespace Httpmock

/-- Result of running a piece of Go code that may panic: either a normal
value or a propagating panic carrying the recovered value (modelled as the
string the matching engine would extract from it). -/
inductive GoResult (α : Type) where
  | ok (val : α)
  | panicked (msg : String)
deriving Repr

/-- Outcome of an external value matcher's Match method
(`matcher.Matcher.Match(actual) (bool, error)` in Go): a boolean result, a
returned error, or a panic raised by untrusted user code. -/
inductive MatchOutcome where
  | result (matched : Bool)
  | failure (msg : String)
  | panic (msg : String)
deriving Repr, DecidableEq

/-- A value matcher (the external matcher library's Matcher contract):
`Match` over a string input plus the human-readable `Expected()` string. -/
structure Matcher where
  run : String → MatchOutcome
  expectedStr : String

/-- `recovered` (src/planner/helper.go): converts a recovered panic value to
a string. Panic payloads in this embedding are already strings, so this is
the `case string` arm of the Go type switch. -/
def recovered (v : String) : String := v

/-- Models Go `%q` rendering of a string that contains no characters needing
escapes (all strings in the settled claims are of this shape). -/
def goQuote (s : String) : String := "\"" ++ s ++ "\""

/-- The body of an incoming HTTP request: either the original one-shot
network stream (whose single read yields data or an I/O error, and whose
`Close` may also fail), or the in-memory re-readable buffer that `GetBody`
installs (`io.NopCloser(bytes.NewReader(body))`). -/
inductive RequestBody where
  | stream (data : Except String String) (closeErr : Option String)
  | buffer (data : String)
deriving Repr

/-- An incoming `*http.Request`, restricted to the fields the matching
engine reads. Header names are assumed already in canonical MIME form. -/
structure HttpRequest where
  method : String
  requestURI : String
  header : List (String × String)
  body : RequestBody

/-- `http.Header.Get`: first value for the key, or the empty string. -/
def headerGet (h : List (String × String)) (key : String) : String :=
  match h.find? (fun p => p.1 == key) with
  | some p => p.2
  | none => ""

/-- `GetBody` (src/value/value.go): read the full body, close the original
stream, and replace the request's body with a re-readable in-memory buffer.
Returns the body bytes together with the mutated request. -/
def GetBody (r : HttpRequest) : Except String (String × HttpRequest) :=
  match r.body with
  | .buffer data => .ok (data, { r with body := .buffer data })
  | .stream (.error e) _ => .error e
  | .stream (.ok _) (some ce) => .error ce
  | .stream (.ok data) none => .ok (data, { r with body := .buffer data })

/-- `initActual` (src/matcher/body.go): the sentinel stored in a
BodyMatcher's `actual` field before decoding the request body. -/
def initActual : String := "<could not decode>"

/-- `BodyMatcher` (src/matcher/body.go): wraps a value matcher and records
the decoded request body for diagnostics. -/
structure BodyMatcher where
  matcher : Matcher
  actual : String

/-- `BodyMatcher.Match` (src/matcher/body.go): set `actual` to the sentinel,
read the body via `GetBody` (an error there is returned as `(false, err)`),
record the decoded string, then run the wrapped matcher on it. A panic in
the wrapped matcher propagates out (there is no recover here; the planner's
`MatchBody` recovers it). Returns the Go `(bool, error)` pair inside
`GoResult`, plus the updated matcher state and the updated request. -/
def BodyMatcher.runMatch (m : BodyMatcher) (r : HttpRequest) :
    GoResult (Bool × Option String) × BodyMatcher × HttpRequest :=
  let m1 : BodyMatcher := { m with actual := initActual }
  match GetBody r with
  | .error e => (.ok (false, some e), m1, r)
  | .ok (data, r') =>
    let m2 : BodyMatcher := { m1 with actual := data }
    match m2.matcher.run data with
    | .panic p => (.panicked p, m2, r')
    | .failure e => (.ok (false, some e), m2, r')
    | .result b => (.ok (b, none), m2, r')

/-- `HeaderMatcher` (src/matcher/body.go): header name to value matcher.
Go iterates a map whose order is unspecified; the embedding iterates the
association list in order (the settled claims do not depend on the order). -/
abbrev HeaderMatcher := List (String × Matcher)

/-- `HeaderMatcher.Match` (src/matcher/body.go): for each configured header,
look up the actual value (missing means empty string) and run its matcher;
the first error or mismatch is terminal. An empty matcher always succeeds.
A panic in a value matcher propagates out (recovered by `MatchHeader`). -/
def HeaderMatcher.runMatch : HeaderMatcher → List (String × String) → GoResult (Option String)
  | [], _ => .ok none
  | (h, m) :: rest, header =>
    let value := headerGet header h
    match m.run value with
    | .panic p => .panicked p
    | .failure e => .ok (some ("could not match header: " ++ e))
    | .result false =>
      .ok (some ("header " ++ goQuote h ++ " with value " ++ goQuote m.expectedStr ++
        " expected, " ++ goQuote value ++ " received"))
    | .result true => HeaderMatcher.runMatch rest header

/-- `request.Request` (the expectation type consumed by the sequential
planner): matchers for method/URI/header/body, response configuration,
repeatability bookkeeping and the wait configuration. The `sync.Locker` is
not modelled (single-threaded embedding); the URI argument of the Go
constructor is coerced by the external matcher library, so the embedding
takes the already-coerced matcher. -/
structure Request where
  method : String
  requestURI : Matcher
  requestHeader : HeaderMatcher
  requestBody : Option BodyMatcher
  responseCode : Int
  responseHeader : List (String × String)
  run : HttpRequest → Except String String
  repeatability : Int
  totalCalls : Int
  waitFor : Option Nat
  waitTime : Int

/-- `request.NewRequest` (src/unnamed/part_013): defaults are status 200,
repeatability 0 (unlimited), no wait, and a handler returning an empty
body. -/
def NewRequest (method : String) (requestURI : Matcher) : Request :=
  { method := method
    requestURI := requestURI
    requestHeader := []
    requestBody := none
    responseCode := 200
    responseHeader := []
    run := fun _ => .ok ""
    repeatability := 0
    totalCalls := 0
    waitFor := none
    waitTime := 0 }

/-- `request.Repeatability` (src/unnamed/part_012). -/
def Repeatability (r : Request) : Int := r.repeatability

/-- `request.SetRepeatability` (src/unnamed/part_012). -/
def SetRepeatability (r : Request) (i : Int) : Request := { r with repeatability := i }

/-- `request.CountCall` (src/unnamed/part_012). -/
def CountCall (r : Request) : Request := { r with totalCalls := r.totalCalls + 1 }

/-- `request.NumCalls` (src/unnamed/part_012). -/
def NumCalls (r : Request) : Int := r.totalCalls

/-- `Request.Times` (src/unnamed/part_013). -/
def Request.Times (r : Request) (i : Int) : Request := { r with repeatability := i }

/-- `Request.Once` (src/unnamed/part_013). -/
def Request.Once (r : Request) : Request := r.Times 1

/-- `Request.Twice` (src/unnamed/part_013). -/
def Request.Twice (r : Request) : Request := r.Times 2

/-- `Request.UnlimitedTimes` (src/unnamed/part_013). -/
def Request.UnlimitedTimes (r : Request) : Request := r.Times 0

/-- `Request.WaitUntil` (src/unnamed/part_013): stores the signal channel
(modelled by a numeric identifier) in the `waitFor` field. -/
def Request.WaitUntil (r : Request) (w : Nat) : Request := { r with waitFor := some w }

/-- `Request.After` (src/unnamed/part_013): stores the duration in the
`waitTime` field; does not touch `waitFor`. -/
def Request.After (r : Request) (d : Int) : Request := { r with waitTime := d }

/-- The wait strategy an expectation applies before responding. -/
inductive WaitStrategy where
  | signal (ch : Nat)
  | sleep (d : Int)
deriving Repr, DecidableEq

/-- The wait selection performed at the top of `Request.handle`
(src/unnamed/part_013 lines 249-254): block on the signal channel when
`waitFor` is set, otherwise sleep for `waitTime`. -/
def Request.handleWait (r : Request) : WaitStrategy :=
  match r.waitFor with
  | some ch => .signal ch
  | none => .sleep r.waitTime

/-- `planner.Error` (src/planner/error.go), the structured match error:
carries the expected expectation, the actual request, and the formatted
message (`fmt.Sprintf(messageFormat, messageArgs...)`, the text after
"Error: " in the rendered diagnostic). -/
structure MatchErr where
  expected : Request
  actual : HttpRequest
  message : String

/-- `planner.NewError` (src/planner/error.go). -/
def NewError (expected : Request) (actual : HttpRequest) (message : String) : MatchErr :=
  { expected := expected, actual := actual, message := message }

/-- `planner.MatchMethod` (src/planner/matcher.go): exact string
comparison; no recover (nothing in it can panic). -/
def MatchMethod (expected : Request) (actual : HttpRequest) : Option MatchErr :=
  if expected.method != actual.method then
    some (NewError expected actual
      ("method " ++ goQuote expected.method ++ " expected, " ++ goQuote actual.method ++ " received"))
  else none

/-- `planner.MatchURI` (src/planner/matcher.go): runs the URI matcher on
the raw request URI. The deferred recover converts a panic into the
"could not match request uri" error; a returned matcher error gets the same
prefix; a mismatch reports expected vs received. -/
def MatchURI (expected : Request) (actual : HttpRequest) : Option MatchErr :=
  let uri := expected.requestURI
  match uri.run actual.requestURI with
  | .panic p =>
    some (NewError expected actual ("could not match request uri: " ++ recovered p))
  | .failure e =>
    some (NewError expected actual ("could not match request uri: " ++ e))
  | .result false =>
    some (NewError expected actual
      ("request uri " ++ goQuote uri.expectedStr ++ " expected, " ++
        goQuote actual.requestURI ++ " received"))
  | .result true => none

/-- `planner.MatchHeader` (src/planner/matcher.go): succeeds immediately
when no header matcher is configured; otherwise delegates to
`HeaderMatcher.Match`, with the deferred recover converting a panic into
the "could not match header" error. -/
def MatchHeader (expected : Request) (actual : HttpRequest) : Option MatchErr :=
  match expected.requestHeader with
  | [] => none
  | hm =>
    match HeaderMatcher.runMatch hm actual.header with
    | .panicked p =>
      some (NewError expected actual ("could not match header: " ++ recovered p))
    | .ok (some e) => some (NewError expected actual e)
    | .ok none => none

/-- `planner.MatchBody` (src/planner/matcher.go): succeeds immediately when
the body matcher is nil; otherwise runs it, with the deferred recover
converting a panic into the "could not match body" error; on mismatch the
message depends on whether the matcher's expectation string is empty. The
body matcher's post-call `actual` state and the re-buffered request are
read out of `runMatch`; their persistence beyond this call (Go pointer
mutation) is not needed by the claims settled here. -/
def MatchBody (expected : Request) (actual : HttpRequest) : Option MatchErr :=
  match expected.requestBody with
  | none => none
  | some m =>
    match m.runMatch actual with
    | (.panicked p, _, _) =>
      some (NewError expected actual ("could not match body: " ++ recovered p))
    | (.ok (_, some e), _, _) =>
      some (NewError expected actual ("could not match body: " ++ e))
    | (.ok (true, none), _, _) => none
    | (.ok (false, none), m', _) =>
      if m'.matcher.expectedStr != "" then
        some (NewError expected actual
          ("expected request body: " ++ m'.matcher.expectedStr ++ ", received: " ++ m'.actual))
      else
        some (NewError expected actual
          ("body does not match expectation, received: " ++ m'.actual))

/-- `planner.MatchRequest` (src/planner/matcher.go): the four checks in
fixed order, short-circuiting on the first failure. -/
def MatchRequest (expected : Request) (actual : HttpRequest) : Option MatchErr :=
  match MatchMethod expected actual with
  | some e => some e
  | none =>
  match MatchURI expected actual with
  | some e => some e
  | none =>
  match MatchHeader expected actual with
  | some e => some e
  | none => MatchBody expected actual

/-- `nextExpectations` (src/planner/sequence.go): reads the head of the
queue (panicking on an empty slice, as `expectedRequests[0]` would),
applies the repeatability rule and returns the matched expectation together
with the remaining queue. Go mutates the head in place, so a kept head is
the same (updated) expectation that is returned. -/
def nextExpectations : List Request → GoResult (Request × List Request)
  | [] => .panicked "runtime error: index out of range"
  | r :: rest =>
    let t := Repeatability r
    if t = 0 then .ok (r, r :: rest)
    else if t > 0 then
      let r' := SetRepeatability r (t - 1)
      if Repeatability r' > 0 then .ok (r', r' :: rest)
      else .ok (r', rest)
    else .ok (r, rest)

/-- The `sequence` planner (src/planner/sequence.go): an ordered queue of
expectations. The mutex is not modelled (single-threaded embedding). -/
structure Sequence where
  expectations : List Request

/-- `sequence.IsEmpty` (src/planner/sequence.go). -/
def Sequence.IsEmpty (s : Sequence) : Bool := s.expectations.isEmpty

/-- `sequence.Expect` (src/planner/sequence.go): append to the tail. -/
def Sequence.Expect (s : Sequence) (e : Request) : Sequence :=
  ⟨s.expectations ++ [e]⟩

/-- `sequence.Remain` (src/planner/sequence.go). -/
def Sequence.Remain (s : Sequence) : List Request := s.expectations

/-- `sequence.Reset` (src/planner/sequence.go). -/
def Sequence.Reset (_ : Sequence) : Sequence := ⟨[]⟩

/-- `sequence.Plan` (src/planner/sequence.go): match the head of the queue
(`s.expectations[0]` panics when the queue is empty); on mismatch return
the error and leave the queue untouched; on success advance via
`nextExpectations`. The Go pair `(expected, err)` with exactly one side nil
is rendered as `Except`: `.error err` is `(nil, err)` and `.ok expected` is
`(expected, nil)`. -/
def Sequence.Plan (s : Sequence) (req : HttpRequest) :
    GoResult (Except MatchErr Request × Sequence) :=
  match s.expectations with
  | [] => .panicked "runtime error: index out of range"
  | e :: rest =>
    match MatchRequest e req with
    | some err => .ok (.error err, s)
    | none =>
      match nextExpectations (e :: rest) with
      | .panicked p => .panicked p
      | .ok (expected, expectations) => .ok (.ok expected, ⟨expectations⟩)

/-- A `wait.Waiter` (used by the newer `requestExpectation` API): no wait,
wait for a signal channel, or wait for a fixed duration. -/
inductive Waiter where
  | noWait
  | forSignal (ch : Nat)
  | forDuration (d : Int)
deriving Repr, DecidableEq

/-- `requestExpectation` (src/matcher/body.go): the newer expectation type
implementing the planner's Expectation contract. `repeatTimes` and
`fulfilledTimes` are Go `uint` (modelled as `Nat`; the guarded decrement in
`Fulfilled` is what keeps `repeatTimes` from wrapping below zero). -/
structure RequestExpectation where
  waiter : Waiter
  requestMethod : String
  requestURIMatcher : Matcher
  requestHeaderMatcher : HeaderMatcher
  requestBodyMatcher : Option BodyMatcher
  responseCode : Int
  responseHeader : List (String × String)
  handle : HttpRequest → Except String String
  repeatTimes : Nat
  fulfilledTimes : Nat

/-- `newRequestExpectation` (src/matcher/body.go): defaults are status 200,
repeat count 0 (unlimited), no wait. -/
def newRequestExpectation (method : String) (requestURI : Matcher) : RequestExpectation :=
  { waiter := .noWait
    requestMethod := method
    requestURIMatcher := requestURI
    requestHeaderMatcher := []
    requestBodyMatcher := none
    responseCode := 200
    responseHeader := []
    handle := fun _ => .ok ""
    repeatTimes := 0
    fulfilledTimes := 0 }

/-- `requestExpectation.RemainTimes` (src/matcher/body.go). -/
def RequestExpectation.RemainTimes (e : RequestExpectation) : Nat := e.repeatTimes

/-- `requestExpectation.FulfilledTimes` (src/matcher/body.go). -/
def RequestExpectation.FulfilledTimes (e : RequestExpectation) : Nat := e.fulfilledTimes

/-- `requestExpectation.Fulfilled` (src/matcher/body.go): decrement the
remaining repeat count only when it is strictly positive, and always
increment the fulfilled-call count. -/
def RequestExpectation.Fulfilled (e : RequestExpectation) : RequestExpectation :=
  { e with
    repeatTimes := if e.repeatTimes > 0 then e.repeatTimes - 1 else e.repeatTimes
    fulfilledTimes := e.fulfilledTimes + 1 }

/-- Iterated fulfilment: `Fulfilled` applied n times. -/
def fulfilledIter (e : RequestExpectation) : Nat → RequestExpectation
  | 0 => e
  | n + 1 => (fulfilledIter e n).Fulfilled

/-- `requestExpectation.Times` (src/matcher/body.go). -/
def RequestExpectation.Times (e : RequestExpectation) (i : Nat) : RequestExpectation :=
  { e with repeatTimes := i }

/-- `requestExpectation.WaitUntil` (src/matcher/body.go): installs a
signal waiter in the single `waiter` field. -/
def RequestExpectation.WaitUntil (e : RequestExpectation) (ch : Nat) : RequestExpectation :=
  { e with waiter := .forSignal ch }

/-- `requestExpectation.After` (src/matcher/body.go): installs a duration
waiter in the same single `waiter` field. -/
def RequestExpectation.After (e : RequestExpectation) (d : Int) : RequestExpectation :=
  { e with waiter := .forDuration d }

/-- The wait strategy `requestExpectation.Handle` applies before
responding (src/matcher/body.go): it waits on the `waiter` field. -/
def RequestExpectation.handleWaiter (e : RequestExpectation) : Waiter := e.waiter

/-- A configuration call that installs a wait strategy on an expectation:
either `WaitUntil(signal)` or `After(duration)`. -/
inductive WaitSetter where
  | waitUntil (ch : Nat)
  | after (d : Int)
deriving Repr, DecidableEq

/-- Apply a wait setter to the legacy `request.Request`. -/
def applyWaitSetter (r : Request) : WaitSetter → Request
  | .waitUntil ch => r.WaitUntil ch
  | .after d => r.After d

/-- Apply a wait setter to a `requestExpectation`. -/
def applyExpWaitSetter (e : RequestExpectation) : WaitSetter → RequestExpectation
  | .waitUntil ch => e.WaitUntil ch
  | .after d => e.After d

/-- The wait strategy a given setter installs. -/
def installedWait : WaitSetter → WaitStrategy
  | .waitUntil ch => .signal ch
  | .after d => .sleep d

/-- The waiter a given setter installs on a `requestExpectation`. -/
def installedWaiter : WaitSetter → Waiter
  | .waitUntil ch => .forSignal ch
  | .after d => .forDuration d

/-- Modelled from the spec sentence behind claim C9 ("the wait strategy
applied before responding is the one installed by whichever setter was
called last"), stated for the legacy `request.Request`: after any non-empty
sequence of wait-setter calls, the strategy `handle` applies equals the
strategy installed by the last call. This is the claim to be compared with
the source behaviour. -/
def waitLastWriteWins (base : Request) (ops : List WaitSetter) : Prop :=
  ∀ h : ops ≠ [], (ops.foldl applyWaitSetter base).handleWait = installedWait (ops.getLast h)

/-- The four-space indent used by the diagnostic formatter
(src/format/format.go). -/
def indentStr : String := "    "

/-- `format.ExpectedRequestTimes` / `formatRequestTimes`
(src/format/format.go): first line is "METHOD URI", with the
"(called: N time(s), remaining: M time(s))" suffix exactly when
remaining > 0 and (called is not 0 or remaining is not 1); then the header
block (when any header matcher is configured) and the body block (when a
body matcher with a non-empty expectation string is configured). Values are
rendered through the external matcher library's Expected() string (the
exact-matcher case of formatValueInline/formatValue); Go iterates the
header map in sorted key order, the embedding renders the association list
in stored order. -/
def ExpectedRequestTimes (method : String) (uri : Matcher) (header : HeaderMatcher)
    (body : Option BodyMatcher) (totalCalls remainingCalls : Int) : String :=
  let times :=
    if remainingCalls > 0 ∧ (totalCalls ≠ 0 ∨ remainingCalls ≠ 1) then
      " (called: " ++ toString totalCalls ++ " time(s), remaining: " ++
        toString remainingCalls ++ " time(s))"
    else ""
  let headerBlock :=
    match header with
    | [] => ""
    | hs => indentStr ++ "with header:\n" ++
        String.join (hs.map (fun p => indentStr ++ indentStr ++ p.1 ++ ": " ++ p.2.expectedStr ++ "\n"))
  let bodyBlock :=
    match body with
    | none => ""
    | some m =>
      if m.matcher.expectedStr = "" then ""
      else indentStr ++ "with body\n" ++ indentStr ++ indentStr ++ m.matcher.expectedStr ++ "\n"
  method ++ " " ++ uri.expectedStr ++ times ++ "\n" ++ headerBlock ++ bodyBlock

/-- The mock `Server` (src/server.go): the planner, the default request
options applied to every new expectation, the default response headers, and
the log of matched requests. The test reporter and the underlying
`httptest.Server` are external collaborators and are not modelled. -/
structure Server where
  planner : Sequence
  defaultRequestOptions : List (Request → Request)
  defaultResponseHeader : List (String × String)
  requests : List Request

/-- `NewServer` (src/server.go): starts with an empty sequential planner. -/
def NewServer : Server :=
  { planner := ⟨[]⟩, defaultRequestOptions := [], defaultResponseHeader := [], requests := [] }

/-- `Server.Expect` (src/server.go): build the expectation with
`NewRequest(...).Once()`, apply the default request options, then append it
to the planner. Returns the updated server together with the expectation
(the Go method returns the pointer for further chaining). -/
def Server.Expect (s : Server) (method : String) (requestURI : Matcher) : Server × Request :=
  let expect := (NewRequest method requestURI).Once
  let expect := s.defaultRequestOptions.foldl (fun r o => o r) expect
  ({ s with planner := s.planner.Expect expect }, expect)

/-- One step of the `ExpectationsWereMet` loop (src/server.go): skip an
expectation whose remaining repeat count is below 1 and whose call count is
positive; otherwise append its "- " line to the builder and bump the
count. -/
def unmetFold (acc : String × Nat) (expected : Request) : String × Nat :=
  if Repeatability expected < 1 ∧ NumCalls expected > 0 then acc
  else
    (acc.1 ++ "- " ++ ExpectedRequestTimes expected.method expected.requestURI
        expected.requestHeader expected.requestBody (NumCalls expected) (Repeatability expected),
      acc.2 + 1)

/-- `Server.ExpectationsWereMet` (src/server.go): nil when the planner is
empty; otherwise run the loop over the remaining expectations, starting the
builder with the aggregate header line, and return nil when nothing was
formatted, else the built error text. -/
def Server.ExpectationsWereMet (s : Server) : Option String :=
  if s.planner.IsEmpty then none
  else
    let r := s.planner.Remain.foldl unmetFold
      ("there are remaining expectations that were not met:\n", 0)
    if r.2 = 0 then none else some r.1

/-- Outcome of `Server.ServeHTTP`: either the `failResponsef` diagnostic
path (the message is also reported to the host test), or a matched
expectation handed to its handler. -/
inductive ServeOutcome where
  | failResponse (msg : String)
  | handled (e : Request)

/-- `Server.ServeHTTP` (src/server.go): when the planner is empty, answer
"unexpected request received" (with the body appended when it is non-empty
and readable) without ever calling Plan; otherwise delegate to Plan,
turning its error into a fail response, and on success count the call, log
the request, and hand over to the expectation's handler (the response
writing itself is an external effect and is not modelled further). -/
def Server.ServeHTTP (s : Server) (r : HttpRequest) : GoResult (ServeOutcome × Server) :=
  if s.planner.IsEmpty then
    match GetBody r with
    | .ok (body, _) =>
      if body.length > 0 then
        .ok (.failResponse ("unexpected request received: " ++ r.method ++ " " ++
          r.requestURI ++ ", body:\n" ++ body), s)
      else
        .ok (.failResponse ("unexpected request received: " ++ r.method ++ " " ++ r.requestURI), s)
    | .error _ =>
      .ok (.failResponse ("unexpected request received: " ++ r.method ++ " " ++ r.requestURI), s)
  else
    match s.planner.Plan r with
    | .panicked p => .panicked p
    | .ok (.error err, planner') =>
      .ok (.failResponse err.message, { s with planner := planner' })
    | .ok (.ok expected, planner') =>
      let expected := CountCall expected
      .ok (.handled expected, { s with planner := planner', requests := s.requests ++ [expected] })

/-! Concrete inputs for witnesses: an exact matcher (the external matcher
library's ExactMatcher behaviour) and a panicking matcher (untrusted user
code), plus small requests and expectations. -/

/-- Exact string matcher: matches when the actual equals the expected. -/
def exactMatcher (s : String) : Matcher :=
  { run := fun v => .result (v == s), expectedStr := s }

/-- A user-supplied matcher that panics when run. -/
def panicMatcher (msg : String) : Matcher :=
  { run := fun _ => .panic msg, expectedStr := "custom" }

/-- A plain GET / request with an empty buffered body. -/
def reqGET : HttpRequest :=
  { method := "GET", requestURI := "/", header := [], body := .buffer "" }

/-- A plain POST / request with an empty buffered body. -/
def reqPOST : HttpRequest :=
  { method := "POST", requestURI := "/", header := [], body := .buffer "" }

/-- A GET / expectation in its constructor state (repeatability 0). -/
def expGET : Request := NewRequest "GET" (exactMatcher "/")

/-- A GET / expectation whose header matcher panics. -/
def expPanicHeader : Request :=
  { NewRequest "GET" (exactMatcher "/") with
    requestHeader := [("Authorization", panicMatcher "hdr boom")] }

/-- A GET / expectation whose body matcher panics. -/
def expPanicBody : Request :=
  { NewRequest "GET" (exactMatcher "/") with
    requestBody := some { matcher := panicMatcher "body boom", actual := "" } }

/-- Helper facts about `nextExpectations`, shared by the planner claims. -/
theorem nextExpectations_unlimited (e : Request) (rest : List Request)
    (h : Repeatability e = 0) : nextExpectations (e :: rest) = .ok (e, e :: rest) := by
  simp [nextExpectations, h]

theorem nextExpectations_decrement (e : Request) (rest : List Request)
    (h : Repeatability e > 1) :
    nextExpectations (e :: rest) =
      .ok (SetRepeatability e (Repeatability e - 1),
        SetRepeatability e (Repeatability e - 1) :: rest) := by
  simp only [Repeatability] at h
  have h0 : ¬ e.repeatability = 0 := by omega
  have h1 : e.repeatability > 0 := by omega
  have h2 : e.repeatability - 1 > 0 := by omega
  simp [nextExpectations, Repeatability, SetRepeatability, h0, h1, h2]

theorem nextExpectations_last (e : Request) (rest : List Request)
    (h : Repeatability e = 1) :
    nextExpectations (e :: rest) = .ok (SetRepeatability e 0, rest) := by
  simp only [Repeatability] at h
  simp [nextExpectations, Repeatability, SetRepeatability, h]

/-- Claim C1: on a successful Plan against the head of a non-empty queue,
the head is returned and the queue is updated by the repeat rule: remaining
count 0 (unlimited sentinel) leaves the queue unchanged; a count above 1 is
decremented with the head kept first; a count of exactly 1 is decremented
to 0 and the head is removed. -/
theorem plan_success_repeat_rule (e : Request) (rest : List Request) (req : HttpRequest)
    (h : MatchRequest e req = none) :
    (Repeatability e = 0 →
      Sequence.Plan ⟨e :: rest⟩ req = .ok (.ok e, ⟨e :: rest⟩))
  ∧ (Repeatability e > 1 →
      Sequence.Plan ⟨e :: rest⟩ req =
        .ok (.ok (SetRepeatability e (Repeatability e - 1)),
          ⟨SetRepeatability e (Repeatability e - 1) :: rest⟩))
  ∧ (Repeatability e = 1 →
      Sequence.Plan ⟨e :: rest⟩ req = .ok (.ok (SetRepeatability e 0), ⟨rest⟩)) := by
  refine ⟨fun hrep => ?_, fun hrep => ?_, fun hrep => ?_⟩
  · simp [Sequence.Plan, h, nextExpectations_unlimited e rest hrep]
  · simp [Sequence.Plan, h, nextExpectations_decrement e rest hrep]
  · simp [Sequence.Plan, h, nextExpectations_last e rest hrep]

/-- Witness for C1: a twice-repeatable GET / expectation matched by GET /
is decremented to 1 and kept at the head. -/
theorem plan_success_repeat_rule_witness :
    MatchRequest (expGET.Times 2) reqGET = none
  ∧ Repeatability (expGET.Times 2) > 1
  ∧ Sequence.Plan ⟨[expGET.Times 2]⟩ reqGET =
      .ok (.ok (SetRepeatability (expGET.Times 2) (Repeatability (expGET.Times 2) - 1)),
        ⟨[SetRepeatability (expGET.Times 2) (Repeatability (expGET.Times 2) - 1)]⟩) :=
  ⟨rfl, by decide,
    (plan_success_repeat_rule (expGET.Times 2) [] reqGET rfl).2.1 (by decide)⟩

/-- Claim C2: when the incoming request fails the head expectation's
matcher chain, Plan returns no expectation together with the structured
error, and the planner's expectation sequence is left completely unchanged,
so the same head is inspected first on the next Plan call. -/
theorem plan_mismatch_no_advance (e : Request) (rest : List Request) (req : HttpRequest)
    (err : MatchErr) (h : MatchRequest e req = some err) :
    Sequence.Plan ⟨e :: rest⟩ req = .ok (.error err, ⟨e :: rest⟩) := by
  simp [Sequence.Plan, h]

/-- Witness for C2: a POST / request against a GET / expectation fails the
method check and the queue keeps the head. -/
theorem plan_mismatch_no_advance_witness :
    MatchRequest expGET reqPOST =
      some (NewError expGET reqPOST "method \"GET\" expected, \"POST\" received")
  ∧ Sequence.Plan ⟨[expGET]⟩ reqPOST =
      .ok (.error (NewError expGET reqPOST "method \"GET\" expected, \"POST\" received"),
        ⟨[expGET]⟩) :=
  ⟨rfl, plan_mismatch_no_advance expGET [] reqPOST _ rfl⟩

/-- Claim C3: the remaining repeat count never becomes negative: Fulfilled
decrements the repeat count only when it is strictly positive and always
increments the fulfilled-call count by exactly one (so after any sequence
of n fulfilment operations the repeat count is the truncated difference and
never wraps below zero); and the planner never removes an expectation whose
repeat count is the unlimited sentinel 0, nor does advancing produce a
negative repeat count. -/
theorem fulfilment_never_negative :
    (∀ e : RequestExpectation,
        e.Fulfilled.fulfilledTimes = e.fulfilledTimes + 1
      ∧ (0 < e.repeatTimes → e.Fulfilled.repeatTimes = e.repeatTimes - 1)
      ∧ (e.repeatTimes = 0 → e.Fulfilled.repeatTimes = 0))
  ∧ (∀ (e : RequestExpectation) (n : Nat),
        (fulfilledIter e n).repeatTimes = e.repeatTimes - n
      ∧ (fulfilledIter e n).fulfilledTimes = e.fulfilledTimes + n)
  ∧ (∀ (e e' : Request) (rest q' : List Request),
        0 ≤ Repeatability e → nextExpectations (e :: rest) = .ok (e', q') →
        0 ≤ Repeatability e')
  ∧ (∀ (e : Request) (rest : List Request),
        Repeatability e = 0 → nextExpectations (e :: rest) = .ok (e, e :: rest)) := by
  refine ⟨fun e => ⟨rfl, fun h => ?_, fun h => ?_⟩, fun e n => ?_, ?_, ?_⟩
  · simp [RequestExpectation.Fulfilled, h]
  · simp [RequestExpectation.Fulfilled, h]
  · induction n with
    | zero => simp [fulfilledIter]
    | succ k ih =>
      simp only [fulfilledIter, RequestExpectation.Fulfilled] at *
      constructor
      · split <;> omega
      · omega
  · intro e e' rest q' hnn hnext
    simp only [nextExpectations] at hnext
    simp only [Repeatability, SetRepeatability] at *
    split_ifs at hnext with h0 h1 h2 <;>
    · simp only [GoResult.ok.injEq, Prod.mk.injEq] at hnext
      obtain ⟨he, _⟩ := hnext
      subst he
      try dsimp only
      omega
  · exact nextExpectations_unlimited

/-- Witness for C3: three fulfilments of a twice-repeatable expectation
leave the repeat count at zero (not negative), and an unlimited expectation
stays queued. -/
theorem fulfilment_never_negative_witness :
    (fulfilledIter ((newRequestExpectation "GET" (exactMatcher "/")).Times 2) 3).repeatTimes = 0
  ∧ (fulfilledIter ((newRequestExpectation "GET" (exactMatcher "/")).Times 2) 3).fulfilledTimes = 3
  ∧ nextExpectations [expGET] = .ok (expGET, [expGET]) := by
  refine ⟨?_, ?_, fulfilment_never_negative.2.2.2 expGET [] rfl⟩
  · have h := (fulfilment_never_negative.2.1
      ((newRequestExpectation "GET" (exactMatcher "/")).Times 2) 3).1
    simpa using h
  · have h := (fulfilment_never_negative.2.1
      ((newRequestExpectation "GET" (exactMatcher "/")).Times 2) 3).2
    simpa using h

/-- `nextExpectations` never panics on a non-empty queue. -/
theorem nextExpectations_cons_ok (e : Request) (rest : List Request) :
    ∃ v, nextExpectations (e :: rest) = .ok v := by
  simp only [nextExpectations]
  split_ifs <;> exact ⟨_, rfl⟩

/-- `Plan` never panics on a non-empty queue. -/
theorem plan_nonempty_ok (s : Sequence) (req : HttpRequest)
    (h : s.expectations ≠ []) : ∃ v, s.Plan req = .ok v := by
  obtain ⟨exps⟩ := s
  cases exps with
  | nil => exact absurd rfl h
  | cons e rest =>
    simp only [Sequence.Plan]
    cases hm : MatchRequest e req with
    | some err => exact ⟨_, rfl⟩
    | none =>
      obtain ⟨⟨ex, q⟩, hv⟩ := nextExpectations_cons_ok e rest
      rw [hv]
      exact ⟨_, rfl⟩

/-- `ServeHTTP` never panics: its IsEmpty guard keeps Plan away from the
empty queue. -/
theorem serveHTTP_total (srv : Server) (req : HttpRequest) :
    ∃ out, srv.ServeHTTP req = .ok out := by
  by_cases he : srv.planner.IsEmpty = true
  · simp only [Server.ServeHTTP, he, if_true]
    cases hg : GetBody req with
    | error e => exact ⟨_, rfl⟩
    | ok v =>
      obtain ⟨body, r'⟩ := v
      dsimp only
      split_ifs <;> exact ⟨_, rfl⟩
  · have hne : srv.planner.expectations ≠ [] := by
      intro hnil
      exact he (by simp [Sequence.IsEmpty, hnil])
    obtain ⟨⟨exc, q⟩, hv⟩ := plan_nonempty_ok srv.planner req hne
    simp only [Server.ServeHTTP, he, if_false, hv]
    cases exc <;> exact ⟨_, rfl⟩

/-- Claim C10: Plan is not total: it unconditionally inspects the first
queue element and panics on an empty queue; it returns normally whenever
the queue is non-empty; and ServeHTTP never panics because its IsEmpty
check answers "unexpected request received" without calling Plan. -/
theorem plan_empty_panics_server_guards :
    (∀ req : HttpRequest,
      Sequence.Plan ⟨[]⟩ req = .panicked "runtime error: index out of range")
  ∧ (∀ (s : Sequence) (req : HttpRequest), s.expectations ≠ [] →
      ∃ v, s.Plan req = .ok v)
  ∧ (∀ (srv : Server) (req : HttpRequest), ∃ out, srv.ServeHTTP req = .ok out)
  ∧ (∀ (srv : Server) (req : HttpRequest), srv.planner.IsEmpty = true →
      ∃ msg, srv.ServeHTTP req =
        .ok (.failResponse ("unexpected request received: " ++ msg), srv)) := by
  refine ⟨fun req => rfl, plan_nonempty_ok, serveHTTP_total, fun srv req he => ?_⟩
  simp only [Server.ServeHTTP, he, if_true]
  cases hg : GetBody req with
  | error e => exact ⟨_, rfl⟩
  | ok v =>
    obtain ⟨body, r'⟩ := v
    dsimp only
    split_ifs <;> exact ⟨_, rfl⟩

/-- Witness for C10: the empty planner panics on GET /, a one-element
planner plans it normally, and a fresh server answers the unexpected
request without panicking. -/
theorem plan_empty_panics_server_guards_witness :
    Sequence.Plan ⟨[]⟩ reqGET = .panicked "runtime error: index out of range"
  ∧ (∃ v, Sequence.Plan ⟨[expGET]⟩ reqGET = .ok v)
  ∧ (∃ out, NewServer.ServeHTTP reqGET = .ok out)
  ∧ NewServer.planner.IsEmpty = true
  ∧ (∃ msg, NewServer.ServeHTTP reqGET =
      .ok (.failResponse ("unexpected request received: " ++ msg), NewServer)) :=
  ⟨plan_empty_panics_server_guards.1 reqGET,
    plan_empty_panics_server_guards.2.1 ⟨[expGET]⟩ reqGET (by simp),
    plan_empty_panics_server_guards.2.2.1 NewServer reqGET,
    rfl,
    plan_empty_panics_server_guards.2.2.2 NewServer reqGET rfl⟩

/-- Claim C4: MatchRequest runs exactly the four checks in the fixed order
method, URI, header, body, short-circuiting on the first failure: it
returns the first failing check's error, succeeds iff all four checks pass,
the header check passes immediately when no header matcher is configured,
the body check passes immediately when the body matcher is nil, and the
method check is never skipped (a method failure decides the result
unconditionally). -/
theorem matchRequest_order (e : Request) (r : HttpRequest) :
    (MatchRequest e r = none ↔
      (MatchMethod e r = none ∧ MatchURI e r = none ∧
        MatchHeader e r = none ∧ MatchBody e r = none))
  ∧ (∀ err, MatchMethod e r = some err → MatchRequest e r = some err)
  ∧ (∀ err, MatchMethod e r = none → MatchURI e r = some err →
      MatchRequest e r = some err)
  ∧ (∀ err, MatchMethod e r = none → MatchURI e r = none →
      MatchHeader e r = some err → MatchRequest e r = some err)
  ∧ (∀ err, MatchMethod e r = none → MatchURI e r = none →
      MatchHeader e r = none → MatchBody e r = some err → MatchRequest e r = some err)
  ∧ (e.requestHeader = [] → MatchHeader e r = none)
  ∧ (e.requestBody = none → MatchBody e r = none) := by
  refine ⟨⟨fun h => ?_, fun h => ?_⟩, fun err hm => ?_, fun err hm hu => ?_,
    fun err hm hu hh => ?_, fun err hm hu hh hb => ?_, fun hh => ?_, fun hb => ?_⟩
  · cases hm : MatchMethod e r with
    | some _ => simp [MatchRequest, hm] at h
    | none =>
      cases hu : MatchURI e r with
      | some _ => simp [MatchRequest, hm, hu] at h
      | none =>
        cases hh : MatchHeader e r with
        | some _ => simp [MatchRequest, hm, hu, hh] at h
        | none =>
          cases hb : MatchBody e r with
          | some _ => simp [MatchRequest, hm, hu, hh, hb] at h
          | none => exact ⟨rfl, rfl, rfl, rfl⟩

  · obtain ⟨hm, hu, hh, hb⟩ := h
    simp [MatchRequest, hm, hu, hh, hb]
  · simp [MatchRequest, hm]
  · simp [MatchRequest, hm, hu]
  · simp [MatchRequest, hm, hu, hh]
  · simp [MatchRequest, hm, hu, hh, hb]
  · simp [MatchHeader, hh]
  · simp [MatchBody, hb]

/-- Witness for C4: GET / against the GET / expectation passes all four
checks (header and body unconfigured), while POST / fails at the method
check and MatchRequest returns exactly that error. -/
theorem matchRequest_order_witness :
    MatchRequest expGET reqGET = none
  ∧ MatchHeader expGET reqGET = none
  ∧ MatchBody expGET reqGET = none
  ∧ MatchRequest expGET reqPOST =
      some (NewError expGET reqPOST "method \"GET\" expected, \"POST\" received") :=
  ⟨(matchRequest_order expGET reqGET).1.2 ⟨rfl, rfl, rfl, rfl⟩,
    (matchRequest_order expGET reqGET).2.2.2.2.2.1 rfl,
    (matchRequest_order expGET reqGET).2.2.2.2.2.2 rfl,
    (matchRequest_order expGET reqPOST).2.1 _ rfl⟩

/-- Claim C5: a panic inside a URI, header, or body matcher is recovered
and converted into a structured error whose message embeds the recovered
value; MatchURI, MatchHeader and MatchBody are total (the panic never
propagates, which in this embedding is the fact that they return a plain
optional error rather than a GoResult). -/
theorem matcher_panic_recovered (e : Request) (r : HttpRequest) (p : String) :
    (e.requestURI.run r.requestURI = .panic p →
      MatchURI e r = some (NewError e r ("could not match request uri: " ++ recovered p)))
  ∧ (HeaderMatcher.runMatch e.requestHeader r.header = .panicked p →
      MatchHeader e r = some (NewError e r ("could not match header: " ++ recovered p)))
  ∧ (∀ m, e.requestBody = some m → (m.runMatch r).1 = .panicked p →
      MatchBody e r = some (NewError e r ("could not match body: " ++ recovered p))) := by
  refine ⟨fun h => ?_, fun h => ?_, fun m hm h => ?_⟩
  · simp [MatchURI, h]
  · cases hl : e.requestHeader with
    | nil =>
      rw [hl] at h
      simp [HeaderMatcher.runMatch] at h
    | cons a rest =>
      rw [hl] at h
      simp [MatchHeader, hl, h]
  · rcases hrun : m.runMatch r with ⟨res, m', r'⟩
    rw [hrun] at h
    simp only at h
    subst h
    simp [MatchBody, hm, hrun]

/-- Witness for C5: panicking URI, header, and body matchers each yield the
corresponding recovered-panic error. -/
theorem matcher_panic_recovered_witness :
    MatchURI (NewRequest "GET" (panicMatcher "boom")) reqGET =
      some (NewError (NewRequest "GET" (panicMatcher "boom")) reqGET
        "could not match request uri: boom")
  ∧ MatchHeader expPanicHeader reqGET =
      some (NewError expPanicHeader reqGET "could not match header: hdr boom")
  ∧ MatchBody expPanicBody reqGET =
      some (NewError expPanicBody reqGET "could not match body: body boom") :=
  ⟨(matcher_panic_recovered (NewRequest "GET" (panicMatcher "boom")) reqGET "boom").1 rfl,
    (matcher_panic_recovered expPanicHeader reqGET "hdr boom").2.1 rfl,
    (matcher_panic_recovered expPanicBody reqGET "body boom").2.2 _ rfl rfl⟩

/-- Claim C6: when the body stream reads successfully, GetBody returns the
full body bytes and replaces the request's body with a re-readable
in-memory buffer, so a second read (for example a second GetBody call after
a body matcher evaluated the request) yields exactly the same bytes; the
request handed on by BodyMatcher's Match is exactly that re-buffered
request. -/
theorem getBody_rereadable (r : HttpRequest) (b : String) (r' : HttpRequest)
    (h : GetBody r = .ok (b, r')) :
    r'.body = .buffer b
  ∧ GetBody r' = .ok (b, r')
  ∧ (∀ m : BodyMatcher, (m.runMatch r).2.2 = r') := by
  have hbody : r'.body = .buffer b := by
    cases hb : r.body with
    | buffer d =>
      simp [GetBody, hb] at h
      obtain ⟨hd, hr⟩ := h
      subst hd
      rw [← hr]
    | stream ed ce =>
      cases ed with
      | error e => simp [GetBody, hb] at h
      | ok d =>
        cases ce with
        | some ce => simp [GetBody, hb] at h
        | none =>
          simp [GetBody, hb] at h
          obtain ⟨hd, hr⟩ := h
          subst hd
          rw [← hr]
  have heta : { r' with body := RequestBody.buffer b } = r' := by
    obtain ⟨m, u, hd, bd⟩ := r'
    simp only at hbody
    rw [hbody]
  refine ⟨hbody, ?_, fun m => ?_⟩
  · simp [GetBody, hbody, heta]
  · simp only [BodyMatcher.runMatch, h]
    cases hx : ({ { m with actual := initActual } with actual := b } : BodyMatcher).matcher.run b <;>
      simp [hx]

/-- A request whose body is still the original network stream. -/
def reqStream : HttpRequest :=
  { method := "POST", requestURI := "/", header := [], body := .stream (.ok "hello") none }

/-- Witness for C6: reading the streamed body gives "hello" and the second
read gives the same bytes again. -/
theorem getBody_rereadable_witness :
    GetBody reqStream = .ok ("hello", { reqStream with body := .buffer "hello" })
  ∧ GetBody { reqStream with body := RequestBody.buffer "hello" } =
      .ok ("hello", { reqStream with body := RequestBody.buffer "hello" }) :=
  ⟨rfl, (getBody_rereadable reqStream "hello" _ rfl).2.1⟩

/-- The "- " line the unmet-expectations report prints for one
expectation. -/
def unmetLine (e : Request) : String :=
  "- " ++ ExpectedRequestTimes e.method e.requestURI e.requestHeader e.requestBody
    (NumCalls e) (Repeatability e)

/-- The expectations the unmet-expectations loop does not skip: everything
except those with remaining count below 1 and a positive call count. -/
def unmetSurvivors (l : List Request) : List Request :=
  l.filter fun e => !(decide (Repeatability e < 1) && decide (NumCalls e > 0))

theorem join_cons (a : String) (l : List String) :
    String.join (a :: l) = a ++ String.join l := by
  apply String.ext
  simp [String.data_append]

/-- The unmet-expectations loop appends exactly one line per surviving
expectation and counts them. -/
theorem unmetFold_eq (l : List Request) (p : String) (c : Nat) :
    l.foldl unmetFold (p, c) =
      (p ++ String.join ((unmetSurvivors l).map unmetLine),
        c + (unmetSurvivors l).length) := by
  induction l generalizing p c with
  | nil =>
    simp only [List.foldl_nil, unmetSurvivors, List.filter_nil, List.map_nil]
    rw [show String.join [] = "" from rfl, String.append_empty]
    simp
  | cons e t ih =>
    rw [List.foldl_cons]
    by_cases he : Repeatability e < 1 ∧ NumCalls e > 0
    · have h1 : unmetFold (p, c) e = (p, c) := by simp [unmetFold, he]
      have h2 : unmetSurvivors (e :: t) = unmetSurvivors t := by
        simp [unmetSurvivors, List.filter_cons, he.1, he.2]
      rw [h1, h2, ih]
    · have h1 : unmetFold (p, c) e = (p ++ unmetLine e, c + 1) := by
        simp only [unmetFold, if_neg he, unmetLine, String.append_assoc]
      have h2 : unmetSurvivors (e :: t) = e :: unmetSurvivors t := by
        simp [unmetSurvivors, List.filter_cons, he]
      rw [h1, h2, ih]
      refine Prod.ext ?_ ?_
      · simp only [List.map_cons, join_cons, String.append_assoc]
      · simp only [List.length_cons]
        omega

/-- Claim C7: ExpectationsWereMet returns nil when the planner is empty;
otherwise it skips every remaining expectation whose repeat count is below
1 with a positive call count, returns nil exactly when no expectation
survives, and otherwise returns a single aggregated error that starts with
the header line and carries one formatted entry per surviving
expectation. -/
theorem expectationsWereMet_aggregate (s : Server) :
    (s.planner.IsEmpty = true → s.ExpectationsWereMet = none)
  ∧ (s.ExpectationsWereMet = none ↔
      (s.planner.IsEmpty = true ∨ unmetSurvivors s.planner.Remain = []))
  ∧ (s.planner.IsEmpty = false → unmetSurvivors s.planner.Remain ≠ [] →
      s.ExpectationsWereMet =
        some ("there are remaining expectations that were not met:\n" ++
          String.join ((unmetSurvivors s.planner.Remain).map unmetLine))) := by
  by_cases he : s.planner.IsEmpty = true
  · refine ⟨fun _ => by simp [Server.ExpectationsWereMet, he], ?_, fun hf _ => ?_⟩
    · simp [Server.ExpectationsWereMet, he]
    · rw [hf] at he
      exact absurd he (by decide)
  · have hmain := unmetFold_eq s.planner.Remain
      "there are remaining expectations that were not met:\n" 0
    refine ⟨fun h => absurd h he, ?_, fun _ hne => ?_⟩
    · simp only [Server.ExpectationsWereMet, he, if_false, hmain, Nat.zero_add]
      by_cases hl : (unmetSurvivors s.planner.Remain).length = 0
      · simp [hl, List.length_eq_zero.mp hl]
      · rw [if_neg hl]
        constructor
        · intro hc
          exact absurd hc (by simp)
        · intro hc
          rcases hc with hc | hc
          · first
            | exact absurd hc he
            | simp at hc
          · exact absurd (by simp [hc] : (unmetSurvivors s.planner.Remain).length = 0) hl
    · have hl : ¬ (unmetSurvivors s.planner.Remain).length = 0 := by
        intro h0
        exact hne (List.length_eq_zero.mp h0)
      simp only [Server.ExpectationsWereMet, he, if_false, hmain, Nat.zero_add]
      rw [if_neg hl]
      simp

/-- A server with a single once-repeatable remaining expectation. -/
def srvUnmet : Server := { NewServer with planner := ⟨[expGET.Once]⟩ }

/-- Witness for C7: the fresh server reports nil; a server with one
unfulfilled once-expectation reports the aggregated error with that
expectation's line. -/
theorem expectationsWereMet_aggregate_witness :
    NewServer.ExpectationsWereMet = none
  ∧ srvUnmet.planner.IsEmpty = false
  ∧ srvUnmet.ExpectationsWereMet =
      some ("there are remaining expectations that were not met:\n" ++
        String.join ((unmetSurvivors srvUnmet.planner.Remain).map unmetLine)) :=
  ⟨(expectationsWereMet_aggregate NewServer).1 rfl, rfl,
    (expectationsWereMet_aggregate srvUnmet).2.2 rfl
      (by rw [show unmetSurvivors srvUnmet.planner.Remain = [expGET.Once] from rfl]; simp)⟩

/-- Claim C8: Server.Expect builds its expectation with response status 200
and repeat count 1 (Once is applied by the Server before handing the
expectation to the planner), even though both lower-level constructors
default the repeat count to 0 (unlimited); with no default request options
configured the expectation enters the planner in exactly that state. -/
theorem server_expect_once_defaults (s : Server) (method : String) (uri : Matcher)
    (h : s.defaultRequestOptions = []) :
    Repeatability (s.Expect method uri).2 = 1
  ∧ (s.Expect method uri).2.responseCode = 200
  ∧ (s.Expect method uri).1.planner.expectations =
      s.planner.expectations ++ [(s.Expect method uri).2]
  ∧ Repeatability (NewRequest method uri) = 0
  ∧ (newRequestExpectation method uri).repeatTimes = 0 := by
  refine ⟨?_, ?_, ?_, rfl, rfl⟩ <;>
    simp [Server.Expect, h, NewRequest, Request.Once, Request.Times,
      Repeatability, Sequence.Expect]

/-- Witness for C8: a fresh server's first registered expectation has
repeat count 1 and status 200 and is appended to the (empty) queue. -/
theorem server_expect_once_defaults_witness :
    Repeatability (NewServer.Expect "GET" (exactMatcher "/")).2 = 1
  ∧ (NewServer.Expect "GET" (exactMatcher "/")).2.responseCode = 200
  ∧ (NewServer.Expect "GET" (exactMatcher "/")).1.planner.expectations =
      NewServer.planner.expectations ++ [(NewServer.Expect "GET" (exactMatcher "/")).2]
  ∧ Repeatability (NewRequest "GET" (exactMatcher "/")) = 0 :=
  have h := server_expect_once_defaults NewServer "GET" (exactMatcher "/") rfl
  ⟨h.1, h.2.1, h.2.2.1, h.2.2.2.1⟩

/-- Claim C9 counterexample: on the legacy `request.Request`, calling
WaitUntil and then After leaves the signal wait in force — `handle` checks
`waitFor` first — so the strategy applied is not the one installed by the
last setter. -/
theorem wait_last_write_wins_refuted :
    ¬ waitLastWriteWins (NewRequest "GET" (exactMatcher "/"))
      [WaitSetter.waitUntil 5, WaitSetter.after 7] := by
  intro hclaim
  have h := hclaim (by simp)
  simp only [List.foldl, applyWaitSetter, List.getLast, installedWait,
    Request.handleWait, Request.WaitUntil, Request.After, NewRequest] at h
  exact absurd h (by simp)

/-- The `requestExpectation` waiter after a run of setters is the one the
last setter installed (both setters overwrite the single waiter field). -/
theorem foldl_expwait_last (e : RequestExpectation) (ops : List WaitSetter) (h : ops ≠ []) :
    (ops.foldl applyExpWaitSetter e).waiter = installedWaiter (ops.getLast h) := by
  induction ops generalizing e with
  | nil => exact absurd rfl h
  | cons op t ih =>
    cases t with
    | nil =>
      cases op <;> rfl
    | cons op2 t2 =>
      rw [List.foldl_cons, List.getLast_cons (by simp)]
      exact ih (applyExpWaitSetter e op) (by simp)

/-- Claim C9 (amended): on the newer `requestExpectation`, WaitUntil and
After both overwrite the single waiter field, so the strategy Handle
applies is the one installed by the last setter; on the legacy
`request.Request`, the two setters write separate fields and `handle`
checks the signal first, so a configured WaitUntil signal takes precedence
over After regardless of call order. -/
theorem wait_setter_precedence (e : RequestExpectation) (r : Request)
    (ops : List WaitSetter) (h : ops ≠ []) (ch : Nat) (d : Int) :
    (ops.foldl applyExpWaitSetter e).handleWaiter = installedWaiter (ops.getLast h)
  ∧ ((r.WaitUntil ch).After d).handleWait = .signal ch
  ∧ ((r.After d).WaitUntil ch).handleWait = .signal ch :=
  ⟨foldl_expwait_last e ops h, rfl, rfl⟩

/-- Witness for C9 (amended): After called last on a requestExpectation
yields the duration wait; on the legacy Request either order yields the
signal wait. -/
theorem wait_setter_precedence_witness :
    ([WaitSetter.waitUntil 5, WaitSetter.after 7].foldl applyExpWaitSetter
        (newRequestExpectation "GET" (exactMatcher "/"))).handleWaiter =
      Waiter.forDuration 7
  ∧ ((expGET.WaitUntil 5).After 7).handleWait = .signal 5
  ∧ ((expGET.After 7).WaitUntil 5).handleWait = .signal 5 :=
  have h := wait_setter_precedence (newRequestExpectation "GET" (exactMatcher "/"))
    expGET [WaitSetter.waitUntil 5, WaitSetter.after 7] (by simp) 5 7
  ⟨h.1, h.2.1, h.2.2⟩

end Httpmock
